import Mathlib

/-!
Shallow embedding of the data-access core of the FastAPIBase backend
(`backend/app`): the base repository (`repositories/base_repository.py`),
the pagination business model (`schemas/business_model/common.py`), the
unit of work (`unit_of_work/unit_of_work.py`) and the user service
(`services/services/user_service.py`).

Timestamps are modelled as natural numbers, the relational store as a list
of entity records, and the SQLAlchemy session as a record holding the
durable (committed) rows together with the live in-transaction view that
flushed-but-uncommitted writes are applied to.
-/

namespace FastAPIBase

/-- Entity record shape shared by all persisted types, following the columns
of `BaseModel` in `db/models/base_model.py`: surrogate `id`, `create_date`,
nullable `update_date`, and the soft-deletion flag `is_deleted`.  The
`email` column belongs to the concrete `User` model; entity types without
an email simply ignore the field. -/
structure BaseModel where
  id : Nat
  email : String
  create_date : Option Nat
  update_date : Option Nat
  is_deleted : Bool
deriving DecidableEq

/-- A relational store (one table's rows, or a session's view of them). -/
abbrev Store := List BaseModel

/-- SQLAlchemy `Session.merge` followed by `flush`, as used by
`BaseRepository.update` and `BaseRepository.soft_delete`: the row whose
primary key equals the entity's `id` is overwritten with the entity's
state; if no such row exists, the entity is inserted as a new row.
Primary keys are unique in the database, so overwriting every matching row
coincides with overwriting the (at most one) matching row. -/
def dbMerge (s : Store) (e : BaseModel) : Store :=
  if s.any (fun x => x.id == e.id) then
    s.map (fun x => if x.id == e.id then e else x)
  else
    s ++ [e]

namespace BaseRepository

/-- Translation of `BaseRepository.get_by_id` (base_repository.py):
`self._dbSet.filter_by(id=id, is_deleted=False).first()`. -/
def get_by_id (s : Store) (i : Nat) : Option BaseModel :=
  (s.filter (fun e => e.id == i && e.is_deleted == false)).head?

/-- Translation of `BaseRepository.get_all` (base_repository.py):
`self._dbSet.filter_by(is_deleted=False).all()`. -/
def get_all (s : Store) : List BaseModel :=
  s.filter (fun e => e.is_deleted == false)

/-- Translation of `BaseRepository.add` (base_repository.py): sets
`entity.create_date`, then `db.add(entity)` and `db.flush()` insert the
row into the session's view. -/
def add (s : Store) (e : BaseModel) (now : Nat) : Store × BaseModel :=
  let e' : BaseModel := { e with create_date := some now }
  (s ++ [e'], e')

/-- Translation of `BaseRepository.update` (base_repository.py): sets
`entity.update_date`, then `db.merge(entity)` and `db.flush()`.  There is
no existence check and no NotFound path: `merge` inserts the entity when
no row with its primary key exists. -/
def update (s : Store) (e : BaseModel) (now : Nat) : Store × BaseModel :=
  let e' : BaseModel := { e with update_date := some now }
  (dbMerge s e', e')

/-- Translation of `BaseRepository.soft_delete` (base_repository.py): sets
`entity.is_deleted = True` and `entity.update_date`, then `db.merge` and
`db.flush`. -/
def soft_delete (s : Store) (e : BaseModel) (now : Nat) : Store × BaseModel :=
  let e' : BaseModel := { e with is_deleted := true, update_date := some now }
  (dbMerge s e', e')

end BaseRepository

/-- Translation of `PaginationParameterModel`
(schemas/business_model/common.py); pydantic validates `page_index >= 1`
and `page_size >= 1`, which theorems carry as hypotheses. -/
structure PaginationParameterModel where
  page_index : Nat
  page_size : Nat
deriving DecidableEq

/-- Translation of `PaginatedResultModel`
(schemas/business_model/common.py): the three stored fields plus the item
page; the derived fields below are pure functions of these. -/
structure PaginatedResultModel where
  items : List BaseModel
  total_count : Nat
  page_index : Nat
  page_size : Nat
deriving DecidableEq

/-- Derived property `total_pages`:
`(self.total_count + self.page_size - 1) // self.page_size`. -/
def PaginatedResultModel.total_pages (m : PaginatedResultModel) : Nat :=
  (m.total_count + m.page_size - 1) / m.page_size

/-- Derived property `has_previous`: `self.page_index > 1`. -/
def PaginatedResultModel.has_previous (m : PaginatedResultModel) : Bool :=
  decide (m.page_index > 1)

/-- Derived property `has_next`: `self.page_index < self.total_pages`. -/
def PaginatedResultModel.has_next (m : PaginatedResultModel) : Bool :=
  decide (m.page_index < m.total_pages)

/-- Translation of `BaseRepository.to_pagination` (base_repository.py):
filters out soft-deleted rows, counts them, and fetches the page at
`offset (page_index - 1) * page_size` limited to `page_size` rows. -/
def BaseRepository.to_pagination (s : Store) (p : PaginationParameterModel) :
    PaginatedResultModel :=
  let query := s.filter (fun e => e.is_deleted == false)
  let total_count := query.length
  let items := (query.drop ((p.page_index - 1) * p.page_size)).take p.page_size
  { items := items, total_count := total_count,
    page_index := p.page_index, page_size := p.page_size }

/-- Error raised by the storage engine on a failed commit (the spec's
`StorageError`); the engine is an external ACID collaborator, so a failed
commit persists nothing. -/
inductive DbError where
  | storageError : DbError
deriving DecidableEq

/-- The SQLAlchemy session as the unit of work uses it: `committed` holds
the durable rows, `live` the session's current in-transaction view (the
target of flushed writes and of repository reads), `txnActive` whether an
explicit transaction has been begun, and `closed` whether the session has
been released. -/
structure Session where
  committed : Store
  live : Store
  txnActive : Bool
  closed : Bool
deriving DecidableEq

namespace Session

/-- Session `begin`: starts an explicit transaction. -/
def begin (s : Session) : Session := { s with txnActive := true }

/-- Session `commit`: promotes the live view to durable storage.  The
storage engine is assumed ACID, so a failed commit (injected through
`fail`) durably persists nothing; the session is left with its pending
writes still un-persisted. -/
def commitOp (s : Session) (fail : Bool) : Session × Option DbError :=
  if fail then (s, some DbError.storageError)
  else ({ s with committed := s.live, txnActive := false }, none)

/-- Session/transaction `rollback`: discards all pending writes, resetting
the live view to the durable rows. -/
def rollbackOp (s : Session) : Session :=
  { s with live := s.committed, txnActive := false }

/-- Session `close`: releases the session. -/
def close (s : Session) : Session := { s with closed := true }

end Session

/-- Translation of `UserRepository.__init__` (user_repository.py): a
repository instance is bound to the session it was constructed with. -/
structure UserRepository where
  db : Session
deriving DecidableEq

/-- Translation of `ItemRepository.__init__` (item_repository.py). -/
structure ItemRepository where
  db : Session
deriving DecidableEq

/-- The concrete `User` model (db/models/users.py) extends the plain
declarative `Base` of db/base.py — not the `BaseModel` of
db/models/base_model.py — and declares only the columns `id`, `email`,
`name`, `is_active`, `items_count` and `created_at`.  It therefore lacks
the `is_deleted` column that `BaseRepository`'s
`filter_by(..., is_deleted=False)` queries name. -/
def userModelHasIsDeletedColumn : Bool := false

/-- Error raised by the ORM when `filter_by` names a property the queried
entity does not have (SQLAlchemy `InvalidRequestError`). -/
inductive OrmError where
  | invalidRequest : OrmError
deriving DecidableEq

/-- Translation of `UserRepository.get_by_email` (user_repository.py):
`self._dbSet.filter_by(email=email, is_deleted=False).first()`.  Against
the concrete `User` model, which has no `is_deleted` column (see
`userModelHasIsDeletedColumn`), `filter_by` raises `InvalidRequestError`
instead of producing a row or None; the filter expression shows what the
query would compute on a model that carried the column. -/
def UserRepository.get_by_email (s : Store) (email : String) :
    Except OrmError (Option BaseModel) :=
  if userModelHasIsDeletedColumn then
    Except.ok (s.filter (fun e => e.email == email && e.is_deleted == false)).head?
  else
    Except.error OrmError.invalidRequest

/-- Translation of the `UnitOfWork` state (unit_of_work.py):
`_session`, `_transaction` (None until `begin` is called; modelled as a
flag recording whether a transaction object is held), and the two lazily
constructed repository fields. -/
structure UnitOfWork where
  _session : Session
  _transaction : Bool
  _user_repository : Option UserRepository
  _item_repository : Option ItemRepository

namespace UnitOfWork

/-- Translation of `UnitOfWork.__init__`: stores the session; the
transaction and both repository fields start out as `None`. -/
def init (s : Session) : UnitOfWork :=
  { _session := s, _transaction := false,
    _user_repository := none, _item_repository := none }

/-- Translation of `UnitOfWork.begin`:
`self._transaction = self._session.begin()`. -/
def begin (u : UnitOfWork) : UnitOfWork :=
  { u with _session := u._session.begin, _transaction := true }

/-- Translation of `UnitOfWork.rollback`: `if self._transaction:
self._transaction.rollback()` — a no-op when no transaction object is
held. -/
def rollback (u : UnitOfWork) : UnitOfWork :=
  if u._transaction then { u with _session := u._session.rollbackOp } else u

/-- Translation of `UnitOfWork.commit`: `self._session.commit()` inside a
`try`; on an exception the unit of work calls `self.rollback()` and
re-raises.  (On the success path the subsequent
`self._transaction.commit()` concludes an already-committed transaction
and is modelled as a no-op of the external engine.) -/
def commit (u : UnitOfWork) (fail : Bool) : UnitOfWork × Option DbError :=
  match u._session.commitOp fail with
  | (s', none) => ({ u with _session := s' }, none)
  | (s', some e) => (UnitOfWork.rollback { u with _session := s' }, some e)

/-- Exceptions escaping a `transaction()` scope: either the body's own
exception, re-raised after rollback, or a storage error raised by the
commit. -/
inductive TxError (ε : Type) where
  | fromBody : ε → TxError ε
  | fromCommit : DbError → TxError ε
deriving DecidableEq

/-- Translation of the `@contextmanager` method `UnitOfWork.transaction`:
`try: self.begin(); yield; self.commit()` then
`except Exception: self.rollback(); raise` and
`finally: self._session.close()`.  The caller's unit of work is the
`body`, run against the begun session; it returns the session state it
produced together with `some e` when it raised `e`. -/
def transactionScope {ε : Type} (u : UnitOfWork)
    (body : Session → Session × Option ε) (commitFail : Bool) :
    UnitOfWork × Option (TxError ε) :=
  let u1 := u.begin
  match body u1._session with
  | (s2, some e) =>
      let u2 := UnitOfWork.rollback { u1 with _session := s2 }
      ({ u2 with _session := u2._session.close }, some (TxError.fromBody e))
  | (s2, none) =>
      match UnitOfWork.commit { u1 with _session := s2 } commitFail with
      | (u3, none) => ({ u3 with _session := u3._session.close }, none)
      | (u3, some de) =>
          let u4 := UnitOfWork.rollback u3
          ({ u4 with _session := u4._session.close }, some (TxError.fromCommit de))

/-- The class `UnitOfWork` defines neither `__enter__` nor `__exit__`
(unit_of_work.py declares only `begin`, `commit`, `rollback`, `save` and
the generator method `transaction`), so it does not support the context
manager protocol: a `with self.uow:` statement raises a TypeError before
its body runs. -/
def hasEnterMethod : Bool := false

end UnitOfWork

/-- Error taxonomy of the service layer
(services/utils/exceptions/exceptions.py): `NotFoundException` (404),
`BadRequestException` (400), `ConflictException` (409) and
`InternalServerException` (500). -/
inductive ServiceError where
  | notFound : ServiceError
  | badRequest : ServiceError
  | conflict : ServiceError
  | internalServer : ServiceError
deriving DecidableEq

namespace UserService

/-- Translation of `UserService.delete` (services/services/user_service.py):
the body opens `with self.uow:`; were the unit of work a context manager,
the body would look the id up through `get_by_id`, raise
`NotFoundException` when it resolves to nothing, and otherwise soft-delete
and commit.  Because `UnitOfWork` supports no context manager protocol
(see `UnitOfWork.hasEnterMethod`), the `with` statement raises a
TypeError, which the method's generic `except Exception` handler converts
into `InternalServerException`. -/
def delete (s : Store) (i : Nat) (now : Nat) : Except ServiceError Store :=
  if UnitOfWork.hasEnterMethod then
    match BaseRepository.get_by_id s i with
    | none => Except.error ServiceError.notFound
    | some u => Except.ok (BaseRepository.soft_delete s u now).1
  else
    Except.error ServiceError.internalServer

/-- Translation of `UserService.create` (services/services/user_service.py):
the `try` body first runs the duplicate pre-check
`self.uow.user_repository.get_by_email(user.email)`.  Against the concrete
`User` model that call raises `InvalidRequestError` (no `is_deleted`
column), which is not a `BadRequestException`, so the generic
`except Exception` handler rolls back and raises
`InternalServerException` — on every input.  Were the column present, a
hit would raise `BadRequestException` (error code EMAIL_ALREADY_EXISTS),
and a fresh email would enter `with self.uow:` to `add` and `commit`,
which in turn fails with `InternalServerException` because the unit of
work supports no context manager protocol (see
`UnitOfWork.hasEnterMethod`). -/
def create (s : Store) (user : BaseModel) (now : Nat) :
    Except ServiceError (Store × BaseModel) :=
  match UserRepository.get_by_email s user.email with
  | Except.error _ => Except.error ServiceError.internalServer
  | Except.ok (some _) => Except.error ServiceError.badRequest
  | Except.ok none =>
      if UnitOfWork.hasEnterMethod then
        Except.ok (BaseRepository.add s user now)
      else
        Except.error ServiceError.internalServer

end UserService

/-- Concrete live user used to evaluate the development on closed inputs. -/
def demoUser : BaseModel :=
  { id := 1, email := "a@x.com", create_date := some 0, update_date := none,
    is_deleted := false }

/-- Concrete store holding the single committed live user `demoUser`. -/
def demoStore : Store := [demoUser]

/-- Second user carrying the same email as `demoUser`. -/
def demoUser2 : BaseModel :=
  { id := 2, email := "a@x.com", create_date := none, update_date := none,
    is_deleted := false }

/-- Concrete store of 25 live entities, for the pagination boundary cases. -/
def demo25 : Store :=
  (List.range 25).map fun i =>
    { id := i + 1, email := "", create_date := none, update_date := none,
      is_deleted := false }

/-- Concrete open session with one pending (uncommitted) live row. -/
def demoSession : Session :=
  { committed := [], live := [demoUser], txnActive := true, closed := false }

/-- Concrete unit of work holding `demoSession` with a begun transaction. -/
def demoUoWActive : UnitOfWork :=
  { _session := demoSession, _transaction := true,
    _user_repository := none, _item_repository := none }

/-- Concrete transaction body that stages one write and then raises `7`. -/
def bodyRaise (s : Session) : Session × Option Nat :=
  ({ s with live := s.live ++ [demoUser] }, some 7)

/-- Membership in a merged store: a row of `dbMerge s e` is either the
merged entity itself or an untouched row of `s` with a different primary
key. -/
lemma mem_dbMerge {s : Store} {e x : BaseModel} (hx : x ∈ dbMerge s e) :
    x = e ∨ (x ∈ s ∧ x.id ≠ e.id) := by
  unfold dbMerge at hx
  by_cases h : s.any (fun y => y.id == e.id)
  · rw [if_pos h] at hx
    rcases List.mem_map.1 hx with ⟨y, hy, hxy⟩
    by_cases hid : (y.id == e.id) = true
    · left
      rw [← hxy, if_pos hid]
    · right
      rw [← hxy, if_neg hid]
      exact ⟨hy, by simpa using hid⟩
  · rw [if_neg h] at hx
    rcases List.mem_append.1 hx with h1 | h1
    · right
      refine ⟨h1, fun hid => ?_⟩
      exact h (List.any_eq_true.2 ⟨x, h1, by simpa using hid⟩)
    · left
      simpa using h1

/-- The merged entity is always present in the merged store. -/
lemma self_mem_dbMerge (s : Store) (e : BaseModel) : e ∈ dbMerge s e := by
  unfold dbMerge
  by_cases h : s.any (fun y => y.id == e.id)
  · rw [if_pos h]
    rcases List.any_eq_true.1 h with ⟨y, hy, hid⟩
    exact List.mem_map.2 ⟨y, hy, by rw [if_pos hid]⟩
  · rw [if_neg h]
    exact List.mem_append.2 (Or.inr (List.mem_singleton.2 rfl))

/-- Rows returned by `get_all` are exactly the live rows of the store. -/
lemma mem_get_all {t : Store} {x : BaseModel} (hx : x ∈ BaseRepository.get_all t) :
    x ∈ t ∧ x.is_deleted = false := by
  have h := List.mem_filter.1 hx
  exact ⟨h.1, by simpa using h.2⟩

/-- A row returned by `get_by_id` is a live row of the store with the
requested primary key. -/
lemma get_by_id_spec {t : Store} {i : Nat} {x : BaseModel}
    (hx : BaseRepository.get_by_id t i = some x) :
    x ∈ t ∧ x.id = i ∧ x.is_deleted = false := by
  have hmem : x ∈ t.filter (fun e => e.id == i && e.is_deleted == false) :=
    List.mem_of_mem_head? (by simp [BaseRepository.get_by_id] at hx; simp [hx])
  have h := List.mem_filter.1 hmem
  have h2 : x.id = i ∧ x.is_deleted = false := by simpa using h.2
  exact ⟨h.1, h2.1, h2.2⟩

/-- Rows of a fetched page are live rows of the store. -/
lemma mem_to_pagination {t : Store} {p : PaginationParameterModel} {x : BaseModel}
    (hx : x ∈ (BaseRepository.to_pagination t p).items) :
    x ∈ t ∧ x.is_deleted = false := by
  have hmem : x ∈ t.filter (fun e => e.is_deleted == false) :=
    List.mem_of_mem_drop (List.mem_of_mem_take hx)
  have h := List.mem_filter.1 hmem
  exact ⟨h.1, by simpa using h.2⟩

/-- After a soft delete, every row carrying the deleted entity's primary
key is marked deleted. -/
lemma soft_delete_marks_id (s : Store) (e : BaseModel) (now : Nat) :
    ∀ x ∈ (BaseRepository.soft_delete s e now).1, x.id = e.id → x.is_deleted = true := by
  intro x hx hid
  rcases mem_dbMerge hx with h | h
  · rw [h]
  · exact absurd hid h.2

/-- Claim C2: after `soft_delete(E)` succeeds, `get_by_id(E.id)` returns
none, neither `get_all` nor the paginated read includes E (no returned row
carries E's primary key), and every read operation of the repository
(`get_by_id`, `get_all`, `to_pagination`) excludes rows whose deleted flag
is set. -/
theorem repository_soft_delete_exclusion (s : Store) (e : BaseModel) (now : Nat) :
    BaseRepository.get_by_id (BaseRepository.soft_delete s e now).1 e.id = none
    ∧ (BaseRepository.soft_delete s e now).2 ∉
        BaseRepository.get_all (BaseRepository.soft_delete s e now).1
    ∧ (∀ x, x ∈ BaseRepository.get_all (BaseRepository.soft_delete s e now).1 →
        x.id ≠ e.id)
    ∧ (∀ p x,
        x ∈ (BaseRepository.to_pagination (BaseRepository.soft_delete s e now).1 p).items →
        x.id ≠ e.id)
    ∧ (∀ t x, x ∈ BaseRepository.get_all t → x.is_deleted = false)
    ∧ (∀ t i x, BaseRepository.get_by_id t i = some x → x.is_deleted = false)
    ∧ (∀ t p x, x ∈ (BaseRepository.to_pagination t p).items → x.is_deleted = false) := by
  refine ⟨?_, ?_, ?_, ?_, ?_, ?_, ?_⟩
  · cases hq : BaseRepository.get_by_id (BaseRepository.soft_delete s e now).1 e.id with
    | none => rfl
    | some x =>
        rcases get_by_id_spec hq with ⟨hmem, hid, hlive⟩
        have := soft_delete_marks_id s e now x hmem hid
        rw [hlive] at this
        exact absurd this (by simp)
  · intro hx
    rcases mem_get_all hx with ⟨_, hlive⟩
    have : (BaseRepository.soft_delete s e now).2.is_deleted = true := rfl
    rw [hlive] at this
    exact absurd this (by simp)
  · intro x hx hid
    rcases mem_get_all hx with ⟨hmem, hlive⟩
    have := soft_delete_marks_id s e now x hmem hid
    rw [hlive] at this
    exact absurd this (by simp)
  · intro p x hx hid
    rcases mem_to_pagination hx with ⟨hmem, hlive⟩
    have := soft_delete_marks_id s e now x hmem hid
    rw [hlive] at this
    exact absurd this (by simp)
  · exact fun t x hx => (mem_get_all hx).2
  · exact fun t i x hx => (get_by_id_spec hx).2.2
  · exact fun t p x hx => (mem_to_pagination hx).2

/-- Claim C2 witness: evaluation on the concrete one-user store. -/
theorem repository_soft_delete_exclusion_witness :
    BaseRepository.get_by_id (BaseRepository.soft_delete demoStore demoUser 5).1
      demoUser.id = none
    ∧ (BaseRepository.soft_delete demoStore demoUser 5).2 ∉
        BaseRepository.get_all (BaseRepository.soft_delete demoStore demoUser 5).1 :=
  ⟨(repository_soft_delete_exclusion demoStore demoUser 5).1,
   (repository_soft_delete_exclusion demoStore demoUser 5).2.1⟩

/-- Claim C9: soft delete is idempotent at the repository level — a second
`soft_delete` of the already-deleted entity produces no error (the
operation is total), the entity stays marked deleted, and the store's
deletion flags are untouched by the second call. -/
theorem repository_soft_delete_idempotent (s : Store) (e : BaseModel) (n1 n2 : Nat) :
    (BaseRepository.soft_delete s e n1).2.is_deleted = true
    ∧ (BaseRepository.soft_delete (BaseRepository.soft_delete s e n1).1
        (BaseRepository.soft_delete s e n1).2 n2).2.is_deleted = true
    ∧ (BaseRepository.soft_delete (BaseRepository.soft_delete s e n1).1
          (BaseRepository.soft_delete s e n1).2 n2).1.map
            (fun x => (x.id, x.is_deleted))
      = (BaseRepository.soft_delete s e n1).1.map (fun x => (x.id, x.is_deleted)) := by
  refine ⟨rfl, rfl, ?_⟩
  set e1 : BaseModel := { e with is_deleted := true, update_date := some n1 } with he1
  set s1 : Store := dbMerge s e1 with hs1
  set e2 : BaseModel := { e1 with is_deleted := true, update_date := some n2 } with he2
  show (dbMerge s1 e2).map (fun x => (x.id, x.is_deleted))
      = s1.map (fun x => (x.id, x.is_deleted))
  have hany : s1.any (fun y => y.id == e2.id) = true :=
    List.any_eq_true.2 ⟨e1, self_mem_dbMerge s e1, by simp [he2]⟩
  unfold dbMerge
  rw [if_pos hany, List.map_map]
  refine List.map_congr_left ?_
  intro x hx
  by_cases hid : (x.id == e2.id) = true
  · have hidx : x.id = e.id := by simpa [he2, he1] using hid
    have hdel : x.is_deleted = true := by
      rcases mem_dbMerge (hs1 ▸ hx) with h | h
      · rw [h]
      · exact absurd hidx (by simpa [he1] using h.2)
    simp [Function.comp, if_pos hid, he2, he1, hidx, hdel]
  · have hne : ¬ x.id = e.id := by simpa [he2, he1] using hid
    simp [Function.comp, hne]

/-- Claim C3: for `page_index >= 1` and `page_size >= 1`, `total_pages` is
the ceiling of `total_count / page_size` (stated through `⌈/⌉` and through
the Galois characterisation of the ceiling), `has_previous` holds exactly
for `page_index > 1`, `has_next` exactly below `total_pages`, the fetched
page is the live rows at offset `(page_index - 1) * page_size` limited to
`page_size`, and the `total_count = 25, page_size = 10` boundary cases
come out as specified (with page 4 empty and without a next page). -/
theorem pagination_arithmetic (s : Store) (p : PaginationParameterModel)
    (hsize : 1 ≤ p.page_size) (_hindex : 1 ≤ p.page_index) :
    (BaseRepository.to_pagination s p).total_pages
        = (BaseRepository.to_pagination s p).total_count ⌈/⌉ p.page_size
    ∧ (∀ k, (BaseRepository.to_pagination s p).total_pages ≤ k ↔
        (BaseRepository.to_pagination s p).total_count ≤ p.page_size * k)
    ∧ ((BaseRepository.to_pagination s p).has_previous = true ↔ 1 < p.page_index)
    ∧ ((BaseRepository.to_pagination s p).has_next = true ↔
        p.page_index < (BaseRepository.to_pagination s p).total_pages)
    ∧ (BaseRepository.to_pagination s p).items
        = ((BaseRepository.get_all s).drop ((p.page_index - 1) * p.page_size)).take
            p.page_size
    ∧ (BaseRepository.to_pagination demo25
        { page_index := 1, page_size := 10 }).total_pages = 3
    ∧ (BaseRepository.to_pagination demo25
        { page_index := 1, page_size := 10 }).has_previous = false
    ∧ (BaseRepository.to_pagination demo25
        { page_index := 1, page_size := 10 }).has_next = true
    ∧ (BaseRepository.to_pagination demo25
        { page_index := 3, page_size := 10 }).has_previous = true
    ∧ (BaseRepository.to_pagination demo25
        { page_index := 3, page_size := 10 }).has_next = false
    ∧ (BaseRepository.to_pagination demo25
        { page_index := 4, page_size := 10 }).items = []
    ∧ (BaseRepository.to_pagination demo25
        { page_index := 4, page_size := 10 }).has_next = false := by
  have hceil : (BaseRepository.to_pagination s p).total_pages
      = (BaseRepository.to_pagination s p).total_count ⌈/⌉ p.page_size := by
    rw [Nat.ceilDiv_eq_add_pred_div]
    rfl
  refine ⟨hceil, ?_, ?_, ?_, rfl, by decide, by decide, by decide, by decide,
    by decide, by decide, by decide⟩
  · intro k
    rw [hceil]
    exact ceilDiv_le_iff_le_mul hsize
  · simp [PaginatedResultModel.has_previous, BaseRepository.to_pagination, Nat.lt_iff_add_one_le]
  · simp [PaginatedResultModel.has_next, BaseRepository.to_pagination]

/-- Claim C3 witness: evaluation on the 25-row store at page 1 of size 10. -/
theorem pagination_arithmetic_witness :
    1 ≤ 10 ∧ 1 ≤ 1
    ∧ (BaseRepository.to_pagination demo25
        { page_index := 1, page_size := 10 }).total_pages
      = (BaseRepository.to_pagination demo25
          { page_index := 1, page_size := 10 }).total_count ⌈/⌉ 10 :=
  ⟨by decide, by decide,
   (pagination_arithmetic demo25 { page_index := 1, page_size := 10 }
      (by decide) (by decide)).1⟩

/-- Claim C10: on an empty collection (`total_count = 0`) with
`page_size >= 1`, `total_pages` is 0 and `has_next` is false for every
page index, the item list is empty, while `has_previous` is still true for
every `page_index > 1` even though such pages are beyond range. -/
theorem pagination_empty_collection (s : Store) (p : PaginationParameterModel)
    (hsize : 1 ≤ p.page_size)
    (h0 : (BaseRepository.to_pagination s p).total_count = 0) :
    (BaseRepository.to_pagination s p).total_pages = 0
    ∧ (BaseRepository.to_pagination s p).has_next = false
    ∧ (1 < p.page_index → (BaseRepository.to_pagination s p).has_previous = true)
    ∧ (BaseRepository.to_pagination s p).items = [] := by
  have htp : (BaseRepository.to_pagination s p).total_pages = 0 := by
    have h1 : (BaseRepository.to_pagination s p).total_pages
        = (0 + p.page_size - 1) / p.page_size := by
      unfold PaginatedResultModel.total_pages
      rw [h0]
      rfl
    rw [h1]
    exact Nat.div_eq_of_lt (by omega)
  refine ⟨htp, ?_, ?_, ?_⟩
  · simp [PaginatedResultModel.has_next, htp]
  · intro h
    simpa [PaginatedResultModel.has_previous, BaseRepository.to_pagination] using h
  · have hq : s.filter (fun e => e.is_deleted == false) = [] :=
      List.length_eq_zero.1 h0
    show ((s.filter (fun e => e.is_deleted == false)).drop
        ((p.page_index - 1) * p.page_size)).take p.page_size = []
    rw [hq]
    simp

/-- Claim C10 witness: evaluation on the empty store at page 2 of size 10. -/
theorem pagination_empty_collection_witness :
    1 ≤ 10
    ∧ (BaseRepository.to_pagination ([] : Store)
        { page_index := 2, page_size := 10 }).total_count = 0
    ∧ (BaseRepository.to_pagination ([] : Store)
        { page_index := 2, page_size := 10 }).total_pages = 0
    ∧ (BaseRepository.to_pagination ([] : Store)
        { page_index := 2, page_size := 10 }).has_previous = true :=
  ⟨by decide, by decide,
   (pagination_empty_collection ([] : Store) { page_index := 2, page_size := 10 }
      (by decide) (by decide)).1,
   (pagination_empty_collection ([] : Store) { page_index := 2, page_size := 10 }
      (by decide) (by decide)).2.2.1 (by decide)⟩

/-- Claim C8 counterexample: updating an entity that is absent from the
store (e.g. after a concurrent permanent delete) does not fail with
NotFound — on the empty store, `update` succeeds and the merge re-inserts
the entity, which a subsequent `get_by_id` then returns. -/
theorem repository_update_missing_entity_reinserted :
    (BaseRepository.update ([] : Store) demoUser 5).1
      = [{ demoUser with update_date := some 5 }]
    ∧ BaseRepository.get_by_id (BaseRepository.update ([] : Store) demoUser 5).1
        demoUser.id
      = some { demoUser with update_date := some 5 } := by
  constructor <;> rfl

/-- Claim C8 (amended): `update` sets the entity's `update_date` and merges
it by primary key; it never raises NotFound — when no row carries the
entity's id, the merge inserts the entity instead. -/
theorem repository_update_merges_and_reinserts (s : Store) (e : BaseModel) (now : Nat) :
    (BaseRepository.update s e now).2.update_date = some now
    ∧ (∀ x, x ∈ (BaseRepository.update s e now).1 → x.id = e.id →
        x = { e with update_date := some now })
    ∧ ((s.any fun x => x.id == e.id) = false →
        (BaseRepository.update s e now).1 = s ++ [{ e with update_date := some now }]) := by
  refine ⟨rfl, ?_, ?_⟩
  · intro x hx hid
    rcases mem_dbMerge hx with h | h
    · exact h
    · exact absurd hid h.2
  · intro h
    show dbMerge s { e with update_date := some now } = _
    simp [dbMerge, h]

/-- Claim C8 witness: evaluation of the amended statement on the empty
store. -/
theorem repository_update_merges_and_reinserts_witness :
    (([] : Store).any fun x => x.id == demoUser.id) = false
    ∧ (BaseRepository.update ([] : Store) demoUser 5).1
        = [] ++ [{ demoUser with update_date := some 5 }] :=
  ⟨rfl, (repository_update_merges_and_reinserts ([] : Store) demoUser 5).2.2 rfl⟩

/-- Claim C1: a `transaction()` scope begins a transaction on entry (the
caller's body runs against the begun session), commits the body's pending
writes on normal completion, rolls every pending write back and re-raises
the same exception when the body raises, and closes the session on every
exit path.  The hypothesis states that the body drives its writes through
the session (repository calls flush into the live view) and so never
touches durable storage directly. -/
theorem uow_transaction_scope_contract {ε : Type} (u : UnitOfWork)
    (body : Session → Session × Option ε) (commitFail : Bool)
    (hBody : ∀ s, ((body s).1).committed = s.committed) :
    (u.begin)._session.txnActive = true
    ∧ (∀ s2 e, body (u.begin)._session = (s2, some e) →
        (u.transactionScope body commitFail).2 = some (UnitOfWork.TxError.fromBody e)
        ∧ (u.transactionScope body commitFail).1._session.committed
            = u._session.committed
        ∧ (u.transactionScope body commitFail).1._session.live = u._session.committed)
    ∧ (∀ s2, body (u.begin)._session = (s2, none) → commitFail = false →
        (u.transactionScope body commitFail).2 = none
        ∧ (u.transactionScope body commitFail).1._session.committed = s2.live)
    ∧ (u.transactionScope body commitFail).1._session.closed = true := by
  refine ⟨rfl, ?_, ?_, ?_⟩
  · intro s2 e hb
    have hs2 : s2.committed = u._session.committed := by
      have h := hBody (u.begin)._session
      rw [hb] at h
      exact h
    refine ⟨?_, ?_, ?_⟩ <;>
      (simp only [UnitOfWork.transactionScope]; rw [hb];
       try simp [UnitOfWork.rollback, UnitOfWork.begin, Session.rollbackOp,
         Session.close, hs2])
  · intro s2 hb hcf
    subst hcf
    refine ⟨?_, ?_⟩ <;>
      (simp only [UnitOfWork.transactionScope]; rw [hb];
       try simp [UnitOfWork.commit, Session.commitOp, UnitOfWork.begin, Session.close])
  · rcases hb : body (u.begin)._session with ⟨s2, oe⟩
    cases oe <;> cases commitFail <;>
      (simp only [UnitOfWork.transactionScope]; rw [hb];
       simp [UnitOfWork.commit, Session.commitOp, UnitOfWork.rollback,
         UnitOfWork.begin, Session.rollbackOp, Session.close])

/-- Claim C1 witness: the scope run with a body that stages one write and
then raises `7`, on a fresh unit of work over `demoSession`. -/
theorem uow_transaction_scope_contract_witness :
    (∀ s, ((bodyRaise s).1).committed = s.committed)
    ∧ ((UnitOfWork.init demoSession).transactionScope bodyRaise false).2
        = some (UnitOfWork.TxError.fromBody 7)
    ∧ ((UnitOfWork.init demoSession).transactionScope bodyRaise false).1._session.live
        = demoSession.committed
    ∧ ((UnitOfWork.init demoSession).transactionScope bodyRaise
        false).1._session.closed = true := by
  refine ⟨fun s => rfl, ?_, ?_, ?_⟩
  · exact ((uow_transaction_scope_contract (UnitOfWork.init demoSession) bodyRaise false
      (fun s => rfl)).2.1 _ 7 rfl).1
  · exact ((uow_transaction_scope_contract (UnitOfWork.init demoSession) bodyRaise false
      (fun s => rfl)).2.1 _ 7 rfl).2.2
  · exact (uow_transaction_scope_contract (UnitOfWork.init demoSession) bodyRaise false
      (fun s => rfl)).2.2.2

/-- Claim C4: when a transaction has been begun, `UnitOfWork.commit` either
succeeds and persists exactly the pending live view, or the underlying
commit raises and the unit of work rolls back (discarding the pending
writes and leaving durable storage untouched) before the error
propagates — a caller never observes a partially committed store. -/
theorem uow_commit_atomic (u : UnitOfWork) (fail : Bool)
    (hT : u._transaction = true) :
    ((u.commit fail).2 = none
      ∧ (u.commit fail).1._session.committed = u._session.live)
    ∨ ((u.commit fail).2 = some DbError.storageError
      ∧ (u.commit fail).1._session.committed = u._session.committed
      ∧ (u.commit fail).1._session.live = u._session.committed) := by
  cases fail
  · exact Or.inl ⟨rfl, rfl⟩
  · right
    refine ⟨rfl, ?_, ?_⟩ <;>
      simp [UnitOfWork.commit, Session.commitOp, UnitOfWork.rollback, hT,
        Session.rollbackOp]

/-- Claim C4 witness: a failing commit on a unit of work with one pending
write and an active transaction. -/
theorem uow_commit_atomic_witness :
    demoUoWActive._transaction = true
    ∧ (((demoUoWActive.commit true).2 = none
        ∧ (demoUoWActive.commit true).1._session.committed
            = demoUoWActive._session.live)
      ∨ ((demoUoWActive.commit true).2 = some DbError.storageError
        ∧ (demoUoWActive.commit true).1._session.committed
            = demoUoWActive._session.committed
        ∧ (demoUoWActive.commit true).1._session.live
            = demoUoWActive._session.committed)) :=
  ⟨rfl, uow_commit_atomic demoUoWActive true rfl⟩

/-- Claim C5: evaluation of `UserService.delete` at the failing input.  On
`demoStore` the id 1 resolves to the live `demoUser`, yet the first call
already returns InternalServerError — `with self.uow:` raises a TypeError
because `UnitOfWork` supports no context manager protocol — so no call
ever succeeds, and a repeat call returns InternalServerError as well, not
the NotFound the claim (and the method's docstring) promise. -/
theorem userservice_delete_broken_with_protocol :
    BaseRepository.get_by_id demoStore 1 = some demoUser
    ∧ UserService.delete demoStore 1 5 = Except.error ServiceError.internalServer
    ∧ UserService.delete (BaseRepository.soft_delete demoStore demoUser 5).1 1 6
        = Except.error ServiceError.internalServer :=
  ⟨rfl, rfl, rfl⟩

/-- Claim C7: evaluation of `UserService.create` at the failing input.  On
`demoStore`, whose committed `demoUser` already carries the email a@x.com,
creating `demoUser2` with that same email fails with InternalServerError —
not the Conflict the claim states, and not even the BadRequest the method
codes for the duplicate case — because the duplicate pre-check's
`filter_by(email=..., is_deleted=False)` raises `InvalidRequestError`
against the `User` model, which lacks the `is_deleted` column.  The same
happens on the empty store: no call to `create` ever succeeds, so the
claimed scenario (a first committed user surviving a second conflicting
create) is unreachable. -/
theorem userservice_create_always_internal_error :
    UserRepository.get_by_email demoStore demoUser2.email
        = Except.error OrmError.invalidRequest
    ∧ UserService.create demoStore demoUser2 7
        = Except.error ServiceError.internalServer
    ∧ UserService.create ([] : Store) demoUser 7
        = Except.error ServiceError.internalServer :=
  ⟨rfl, rfl, rfl⟩

end FastAPIBase
